import Mathlib

/-!
# Verification of the greenhouse-gases dataset module

Shallow embedding of `greenhouse_gases_module_Gracie.py` (class `Data`).

Modelling conventions:
* A timestamp is a natural number of hours since an epoch aligned with the
  start of a calendar week; `to_period("D")` is `dayOf`, `to_period("W")` is
  `weekOf`, and `PeriodIndex.week` (week-of-year numbering, which cycles) is
  `weekNumOf`.
* A table cell holds `Option ℚ`: `none` is pandas `NaN` (a missing value),
  `some v` a real number.  Exact rationals stand for the floats of the source.
* The raw frame loaded by `read_csv` has the string column `time`, the
  numeric column `mf`, and possibly further numeric columns (`extraCols`,
  with the cell values per row in `RawRow.extra`).  The `week` / `day`
  period columns that `weekly_ave` / `baseline` append to the stored frame
  are recorded as booleans, because their values are recomputed from `time`
  on every call and hence are a function of the stored rows.
* `groupby(k).mean()` sorts the distinct keys ascending (pandas
  `sort=True`), averages every numeric column per group skipping `NaN`
  (a group whose values are all `NaN` gets mean `NaN`), and drops the
  non-numeric columns (`time`, and any period column) from the result.
* `rolling(14).quantile(.05)` uses window = min_periods = 14 observations
  and linear interpolation between order statistics, as pandas does; a
  window containing a `NaN` yields `NaN`.
* Assigning a many-column frame to the single column `"Baseline"` raises
  `ValueError` in pandas; fallible operations return `Except String`.
* Plot calls produce a value describing exactly the data handed to the
  plotting backend, plus the mutated object states.
-/

/-- `to_period("D")`: hours to calendar day index. -/
def dayOf (t : ℕ) : ℕ := t / 24

/-- `to_period("W")`: hours to calendar week index. -/
def weekOf (t : ℕ) : ℕ := t / 168

/-- `PeriodIndex.week`: week-of-year number (1-based, cycles after 52). -/
def weekNumOf (w : ℕ) : ℕ := w % 52 + 1

/-- One row of the raw csv frame: timestamp, mole fraction, extra numeric
columns.  `none` is a missing value (`NaN`). -/
structure RawRow where
  time : ℕ
  mf : Option ℚ
  extra : List (Option ℚ)
deriving DecidableEq, Repr

/-- The frame stored in `self.df`: names of the additional numeric columns,
the rows, and whether the derived `week` / `day` period columns have been
appended by `weekly_ave` / `baseline`. -/
structure RawFrame where
  extraCols : List String
  rows : List RawRow
  hasWeek : Bool := false
  hasDay : Bool := false
deriving DecidableEq, Repr

/-- An aggregated frame (result of `groupby(...).mean()` and friends): the
period key is the index, `cols` names the data columns, and each row pairs
a key with its cell values (aligned with `cols`). -/
structure AggFrame where
  cols : List String
  rows : List (ℕ × List (Option ℚ))
deriving DecidableEq, Repr

/-- The state of a `Data` object.  `data` / `data2` are the attributes that
`plot` / `plot_compare` create on the instance; absent before the first
plotting call. -/
structure Data where
  site : String
  species : String
  path : String
  df : RawFrame
  scale : String
  units : String
  data : Option AggFrame := none
  data2 : Option AggFrame := none
deriving DecidableEq, Repr

/-- Mean of a column skipping missing values, as pandas `mean()`:
`NaN` when no value is present. -/
def meanOpt (l : List (Option ℚ)) : Option ℚ :=
  let vs := l.filterMap id
  if vs.isEmpty then none else some (vs.sum / (vs.length : ℚ))

/-- Insert a key into a strictly sorted list of keys, keeping it strictly
sorted and duplicate-free. -/
def insertKey (x : ℕ) : List ℕ → List ℕ
  | [] => [x]
  | y :: ys => if x < y then x :: y :: ys else if x = y then y :: ys else y :: insertKey x ys

/-- The distinct group keys in ascending order (pandas `groupby` with the
default `sort=True`). -/
def sortedKeys (l : List ℕ) : List ℕ := l.foldr insertKey []

/-- The rows of one group. -/
def groupRows (keyOf : RawRow → ℕ) (rows : List RawRow) (k : ℕ) : List RawRow :=
  rows.filter (fun r => keyOf r = k)

/-- The aggregated cell values of one group: mean of `mf`, then the mean of
each additional numeric column. -/
def aggValues (f : RawFrame) (g : List RawRow) : List (Option ℚ) :=
  meanOpt (g.map (fun r => r.mf))
    :: (List.range f.extraCols.length).map (fun j => meanOpt (g.map (fun r => r.extra.getD j none)))

/-- `df.groupby([key]).mean()`: one row per distinct key, ascending; numeric
columns averaged per group; non-numeric columns dropped. -/
def aggBy (keyOf : RawRow → ℕ) (f : RawFrame) : AggFrame :=
  { cols := "mf" :: f.extraCols
    rows := (sortedKeys (f.rows.map keyOf)).map
      (fun k => (k, aggValues f (groupRows keyOf f.rows k))) }

/-- `Data.weekly_ave`: appends the `week` period column to the stored frame,
groups by week, averages, and renames `mf` to
`"Weekly average mole fraction"`.  Returns the mutated state and the
weekly table. -/
def Data.weekly_ave (d : Data) : Data × AggFrame :=
  let a := aggBy (fun r => weekOf r.time) d.df
  ({ d with df := { d.df with hasWeek := true } },
   { a with cols := a.cols.map (fun c => if c = "mf" then "Weekly average mole fraction" else c) })

/-- Sorted insertion into an ascending list of rationals. -/
def insertLe (x : ℚ) : List ℚ → List ℚ
  | [] => [x]
  | y :: ys => if x ≤ y then x :: y :: ys else y :: insertLe x ys

/-- Ascending insertion sort on rationals. -/
def sortQ (l : List ℚ) : List ℚ := l.foldr insertLe []

/-- numpy / pandas `quantile(q)` with the default linear interpolation
between the order statistics of the window. -/
def quantileLinear (q : ℚ) (l : List ℚ) : ℚ :=
  let s := sortQ l
  let n := s.length
  let h := q * ((n : ℚ) - 1)
  let i := (⌊h⌋).toNat
  let a := s.getD i 0
  if i + 1 < n then a + (h - (i : ℚ)) * (s.getD (i + 1) 0 - a) else a

/-- `some` of the list of values when every entry is present, `none` as soon
as one is missing. -/
def allSome : List (Option ℚ) → Option (List ℚ)
  | [] => some []
  | none :: _ => none
  | some v :: l => (allSome l).map (fun vs => v :: vs)

/-- `rolling(w).quantile(q)` on one column: entry `i` is defined only when
the trailing window of `w` observations ending at `i` is complete and free
of missing values (pandas `min_periods` defaults to the window size). -/
def rollingQ (w : ℕ) (q : ℚ) (l : List (Option ℚ)) : List (Option ℚ) :=
  (List.range l.length).map (fun i =>
    if i + 1 < w then none
    else match allSome ((l.drop (i + 1 - w)).take w) with
      | none => none
      | some vs => some (quantileLinear q vs))

/-- The `mf` column of an aggregated frame. -/
def mfColumn (a : AggFrame) : List (Option ℚ) := a.rows.map (fun p => p.2.headD none)

/-- The day-grouped table with the `"Baseline"` column appended:
`df_ave["Baseline"] = df_ave.rolling(14).quantile(.05)` in the
single-column case. -/
def withBaseline (a : AggFrame) : AggFrame :=
  { cols := a.cols ++ ["Baseline"]
    rows := (a.rows.zip (rollingQ 14 (1/20) (mfColumn a))).map
      (fun p => (p.1.1, p.1.2 ++ [p.2])) }

/-- `dropna()`: keep only the rows all of whose cells are present. -/
def dropna (a : AggFrame) : AggFrame :=
  { a with rows := a.rows.filter (fun p => p.2.all (fun v => v.isSome)) }

/-- `Data.baseline`: appends the `day` period column to the stored frame,
groups by day, averages, appends the rolling 14-observation 5th-percentile
column and drops rows with missing cells.  When the day-grouped frame has
more than the one numeric column `mf`, the assignment of the rolling result
to the single column `"Baseline"` raises (pandas `ValueError`). -/
def Data.baseline (d : Data) : Data × Except String AggFrame :=
  let a := aggBy (fun r => dayOf r.time) d.df
  ({ d with df := { d.df with hasDay := true } },
   if d.df.extraCols.isEmpty then Except.ok (dropna (withBaseline a))
   else Except.error "Cannot set a DataFrame with multiple columns to the single column Baseline")

/-- `Data.glimpse` is `self.df.describe()`; of its output this development
models the `count` row, which pandas fills with the number of non-missing
entries of each numeric column (`mf` first, then the extra columns). -/
def Data.glimpse (d : Data) : List (String × ℕ) :=
  ("mf", (d.df.rows.filter (fun r => r.mf.isSome)).length)
    :: (List.range d.df.extraCols.length).map
      (fun j => (d.df.extraCols.getD j "",
        (d.df.rows.filter (fun r => (r.extra.getD j none).isSome)).length))

/-- Substring test, for `"Baseline" in title`. -/
def containsSub (needle s : String) : Bool := 2 ≤ (s.splitOn needle).length

/-- What `Data.plot` hands to the plotting backend. -/
structure PlotOut where
  x : List String
  y : List (Option ℚ)
  overlay : Option (List (Option ℚ))
  title : String
deriving DecidableEq, Repr

/-- `Data.plot`: stores the plotted frame in `self.data`, renders the index
as strings on the x axis and the last column on the y axis, overlaying the
second-to-last column when the title contains `"Baseline"`. -/
def Data.plot (d : Data) (data : AggFrame) : Data × PlotOut :=
  let title := data.cols.getLastD ""
  ({ d with data := some data },
   { x := data.rows.map (fun p => toString p.1)
     y := data.rows.map (fun p => p.2.getLastD none)
     overlay := if containsSub "Baseline" title
       then some (data.rows.map (fun p => p.2.getD (data.cols.length - 2) none))
       else none
     title := title })

/-- What `Data.plot_compare` hands to the plotting backend. -/
structure CompareOut where
  x : List ℕ
  y : List (Option ℚ)
  x2 : List ℕ
  y2 : List (Option ℚ)
  title : String
deriving DecidableEq, Repr

/-- `Data.plot_compare`: raises when the two units differ, then when the two
scales differ, before anything is stored or drawn; otherwise stores the two
frames on the two instances and plots both series over their week-of-year
numbers with the last point of each dropped. -/
def Data.plot_compare (d : Data) (data : AggFrame) (other : Data) (data2 : AggFrame) :
    Data × Data × Except String CompareOut :=
  if d.units ≠ other.units then (d, other, Except.error "Units must match")
  else if d.scale ≠ other.scale then (d, other, Except.error "Scale must match")
  else
    ({ d with data := some data }, { other with data2 := some data2 },
     Except.ok
       { x := (data.rows.map (fun p => weekNumOf p.1)).dropLast
         y := (data.rows.map (fun p => p.2.getLastD none)).dropLast
         x2 := (data2.rows.map (fun p => weekNumOf p.1)).dropLast
         y2 := (data2.rows.map (fun p => p.2.getLastD none)).dropLast
         title := data.cols.getLastD "" })

/-- `Data.__init__`, parametric in the species-metadata table (rows
`(species, scale, units)` of `data/species_info.csv`) and in the csv store
mapping a path to its parsed frame.  `read_csv` of a missing file raises
`FileNotFoundError`; the metadata lookup `species_info["scale"][species]`
raises `KeyError` when the species is absent. -/
def Data.init (table : List (String × String × String)) (store : String → Option RawFrame)
    (site species : String) : Except String Data :=
  let path := "data/" ++ site ++ "_" ++ species ++ ".csv"
  match store path with
  | none => Except.error "FileNotFoundError"
  | some df =>
    match (table.find? (fun e => e.1 = species)).map (fun e => e.2) with
    | none => Except.error "KeyError"
    | some su =>
      Except.ok { site := site, species := species, path := path, df := df,
                  scale := su.1, units := su.2 }

/-- A raw frame is valid when no mole-fraction value is missing. -/
def RawFrame.validB (f : RawFrame) : Bool := f.rows.all (fun r => r.mf.isSome)

/-- Spec: the arithmetic mean of the raw mole-fraction values of one group
(the rows whose key is `k`). -/
def specGroupMean (keyOf : RawRow → ℕ) (f : RawFrame) (k : ℕ) : ℚ :=
  let vs := (f.rows.filter (fun r => keyOf r = k)).filterMap (fun r => r.mf)
  vs.sum / (vs.length : ℚ)

/-- Spec: the arithmetic mean of the raw mole-fraction values of a week. -/
def specWeekMean (f : RawFrame) (w : ℕ) : ℚ := specGroupMean (fun r => weekOf r.time) f w

/-- Spec: the arithmetic mean of the raw mole-fraction values of a day. -/
def specDayMean (f : RawFrame) (k : ℕ) : ℚ := specGroupMean (fun r => dayOf r.time) f k

/-- Spec: the 5th percentile of a list of values (linear interpolation, the
quantile convention of the source's numerical stack). -/
def percentile5 (l : List ℚ) : ℚ := quantileLinear (1/20) l

/-- Spec: the day-grouped series of a frame (`groupby` on the calendar day). -/
def dayGrouped (f : RawFrame) : AggFrame := aggBy (fun r => dayOf r.time) f

/-- Spec: the daily means of a frame, in day order. -/
def dailyMeans (f : RawFrame) : List ℚ := (dayGrouped f).rows.map (fun p => specDayMean f p.1)

attribute [local semireducible] Rat.mul Rat.inv Rat.add Rat.sub Rat.ofScientific

theorem mem_insertKey {a x : ℕ} {l : List ℕ} : a ∈ insertKey x l ↔ a = x ∨ a ∈ l := by
  induction l with
  | nil => simp [insertKey]
  | cons y ys ih =>
    rw [insertKey]
    split
    · simp
    · split
      · rename_i h1 h2
        subst h2
        simp only [List.mem_cons]
        tauto
      · simp only [List.mem_cons, ih]
        tauto

theorem pairwise_insertKey {x : ℕ} {l : List ℕ} (h : l.Pairwise (· < ·)) :
    (insertKey x l).Pairwise (· < ·) := by
  induction l with
  | nil => simp [insertKey]
  | cons y ys ih =>
    rw [List.pairwise_cons] at h
    obtain ⟨hy, hys⟩ := h
    rw [insertKey]
    split
    · rename_i h1
      refine List.Pairwise.cons ?_ (List.Pairwise.cons hy hys)
      intro z hz
      rcases List.mem_cons.mp hz with hz | hz
      · omega
      · exact lt_trans h1 (hy z hz)
    · split
      · exact List.Pairwise.cons hy hys
      · rename_i h1 h2
        refine List.Pairwise.cons ?_ (ih hys)
        intro z hz
        rcases mem_insertKey.mp hz with hz | hz
        · omega
        · exact hy z hz

theorem pairwise_sortedKeys (l : List ℕ) : (sortedKeys l).Pairwise (· < ·) := by
  induction l with
  | nil => simp [sortedKeys]
  | cons y ys ih => exact pairwise_insertKey ih

theorem mem_sortedKeys {a : ℕ} {l : List ℕ} : a ∈ sortedKeys l ↔ a ∈ l := by
  induction l with
  | nil => simp [sortedKeys]
  | cons y ys ih =>
    show a ∈ insertKey y (sortedKeys ys) ↔ _
    rw [mem_insertKey, ih, List.mem_cons]

theorem nodup_sortedKeys (l : List ℕ) : (sortedKeys l).Nodup :=
  (pairwise_sortedKeys l).imp (fun h => Nat.ne_of_lt h)

theorem filterMap_mf_ne_nil {g : List RawRow} (hne : g ≠ [])
    (hall : ∀ r ∈ g, r.mf.isSome) : g.filterMap (fun r => r.mf) ≠ [] := by
  intro hnil
  rw [List.filterMap_eq_nil_iff] at hnil
  match g, hne with
  | r :: g', _ =>
    have h1 := hall r (List.mem_cons_self r g')
    have h2 := hnil r (List.mem_cons_self r g')
    rw [h2] at h1
    simp at h1

theorem meanOpt_eq_some {g : List RawRow} (hne : g ≠ [])
    (hall : ∀ r ∈ g, r.mf.isSome) :
    meanOpt (g.map (fun r => r.mf)) =
      some ((g.filterMap (fun r => r.mf)).sum / ((g.filterMap (fun r => r.mf)).length : ℚ)) := by
  unfold meanOpt
  have hm : (g.map (fun r => r.mf)).filterMap id = g.filterMap (fun r => r.mf) := by
    rw [List.filterMap_map]
    rfl
  rw [hm]
  simp [List.isEmpty_iff, filterMap_mf_ne_nil hne hall]

theorem groupRows_ne_nil {keyOf : RawRow → ℕ} {rows : List RawRow} {k : ℕ}
    (hk : k ∈ rows.map keyOf) : groupRows keyOf rows k ≠ [] := by
  obtain ⟨r, hr, hrk⟩ := List.mem_map.mp hk
  intro hnil
  have : r ∈ groupRows keyOf rows k := by
    unfold groupRows
    rw [List.mem_filter]
    exact ⟨hr, by simp [hrk]⟩
  rw [hnil] at this
  simp at this

theorem validB_all {f : RawFrame} (hv : f.validB = true) : ∀ r ∈ f.rows, r.mf.isSome := by
  intro r hr
  exact List.all_eq_true.mp hv r hr

/-- Under validity, every group mean is defined and equals the spec's
arithmetic mean of the group's raw values. -/
theorem aggBy_rows_eq (keyOf : RawRow → ℕ) (f : RawFrame) (hx : f.extraCols = [])
    (hv : f.validB = true) :
    (aggBy keyOf f).rows =
      (sortedKeys (f.rows.map keyOf)).map
        (fun k => (k, [some (specGroupMean keyOf f k)])) := by
  unfold aggBy
  apply List.map_congr_left
  intro k hk
  have hk' : k ∈ f.rows.map keyOf := mem_sortedKeys.mp hk
  have hne : groupRows keyOf f.rows k ≠ [] := groupRows_ne_nil hk'
  have hall : ∀ r ∈ groupRows keyOf f.rows k, r.mf.isSome := by
    intro r hr
    exact validB_all hv r (List.mem_filter.mp hr).1
  unfold aggValues
  rw [hx, meanOpt_eq_some hne hall]
  simp [specGroupMean, groupRows]

theorem aggBy_keys (keyOf : RawRow → ℕ) (f : RawFrame) :
    (aggBy keyOf f).rows.map Prod.fst = sortedKeys (f.rows.map keyOf) := by
  unfold aggBy
  rw [List.map_map]
  exact List.map_id _

theorem aggBy_mean (keyOf : RawRow → ℕ) (f : RawFrame) (hv : f.validB = true) :
    ∀ p ∈ (aggBy keyOf f).rows, p.2.headD none = some (specGroupMean keyOf f p.1) := by
  intro p hp
  unfold aggBy at hp
  obtain ⟨k, hk, hpk⟩ := List.mem_map.mp hp
  subst hpk
  have hk' : k ∈ f.rows.map keyOf := mem_sortedKeys.mp hk
  have hne : groupRows keyOf f.rows k ≠ [] := groupRows_ne_nil hk'
  have hall : ∀ r ∈ groupRows keyOf f.rows k, r.mf.isSome := by
    intro r hr
    exact validB_all hv r (List.mem_filter.mp hr).1
  unfold aggValues
  rw [meanOpt_eq_some hne hall]
  simp [specGroupMean, groupRows]

theorem weekly_ave_rows (d : Data) : ((d.weekly_ave).2).rows = (aggBy (fun r => weekOf r.time) d.df).rows := rfl

/-- C2: `weekly_ave` returns exactly one row per distinct calendar week of
the input (keys are duplicate-free and are exactly the weeks present), and
each row's mole-fraction value is the arithmetic mean of the raw
mole-fraction values of that week. -/
theorem weekly_ave_correct (d : Data) (hv : d.df.validB = true) :
    (((d.weekly_ave).2).rows.map Prod.fst).Nodup
    ∧ (∀ w : ℕ, w ∈ ((d.weekly_ave).2).rows.map Prod.fst
        ↔ ∃ r ∈ d.df.rows, weekOf r.time = w)
    ∧ ∀ p ∈ ((d.weekly_ave).2).rows, p.2.headD none = some (specWeekMean d.df p.1) := by
  rw [weekly_ave_rows, aggBy_keys]
  refine ⟨nodup_sortedKeys _, ?_, ?_⟩
  · intro w
    rw [mem_sortedKeys, List.mem_map]
  · exact aggBy_mean _ _ hv

def wit2frame : RawFrame :=
  { extraCols := []
    rows := [{ time := 0, mf := some 1, extra := [] },
             { time := 24, mf := some 2, extra := [] },
             { time := 169, mf := some 5, extra := [] }] }

def wit2 : Data :=
  { site := "MHD", species := "ch4", path := "data/MHD_ch4.csv", df := wit2frame,
    scale := "TU1987", units := "ppb" }

/-- C2 witness: the weekly-average property evaluated on a concrete
three-row series spanning two weeks. -/
theorem weekly_ave_correct_witness :
    wit2.df.validB = true
    ∧ ((((wit2.weekly_ave).2).rows.map Prod.fst).Nodup
      ∧ (∀ w : ℕ, w ∈ ((wit2.weekly_ave).2).rows.map Prod.fst
          ↔ ∃ r ∈ wit2.df.rows, weekOf r.time = w)
      ∧ ∀ p ∈ ((wit2.weekly_ave).2).rows, p.2.headD none = some (specWeekMean wit2.df p.1)) :=
  ⟨by decide, weekly_ave_correct wit2 (by decide)⟩

theorem sum_map_two_mul (l : List ℚ) : (l.map (fun v => 2 * v)).sum = 2 * l.sum := by
  induction l with
  | nil => simp
  | cons x xs ih =>
    simp only [List.map_cons, List.sum_cons, ih]
    ring

theorem pairwise_two_elems {l : List ℕ} {w : ℕ} (hp : l.Pairwise (· < ·))
    (hmem : ∀ a, a ∈ l ↔ (a = w ∨ a = w + 1)) : l = [w, w + 1] := by
  match l, hp with
  | [], _ =>
    have := (hmem w).mpr (Or.inl rfl)
    simp at this
  | [a], _ =>
    have hw := (hmem w).mpr (Or.inl rfl)
    have hw1 := (hmem (w + 1)).mpr (Or.inr rfl)
    simp only [List.mem_singleton] at hw hw1
    omega
  | a :: b :: rest, hp =>
    rw [List.pairwise_cons] at hp
    obtain ⟨hab, hp'⟩ := hp
    rw [List.pairwise_cons] at hp'
    obtain ⟨hbz, _⟩ := hp'
    have hab' : a < b := hab b (List.mem_cons_self b rest)
    have ha := (hmem a).mp (List.mem_cons_self a (b :: rest))
    have hb := (hmem b).mp (List.mem_cons.mpr (Or.inr (List.mem_cons_self b rest)))
    have haw : a = w := by omega
    have hbw : b = w + 1 := by omega
    match rest with
    | [] => rw [haw, hbw]
    | z :: _ =>
      have hz := (hmem z).mp (by simp)
      have := hbz z (List.mem_cons_self z _)
      omega

/-- C3: a raw series whose rows fall in exactly two consecutive weeks, the
second week's values doubling the first week's, yields exactly the two
weekly rows, the first column renamed to "Weekly average mole fraction",
with the second mean twice the first. -/
theorem weekly_ave_two_weeks (d : Data) (w : ℕ) (hv : d.df.validB = true)
    (hall : ∀ r ∈ d.df.rows, weekOf r.time = w ∨ weekOf r.time = w + 1)
    (h1 : ∃ r ∈ d.df.rows, weekOf r.time = w)
    (h2 : ∃ r ∈ d.df.rows, weekOf r.time = w + 1)
    (hdbl : (d.df.rows.filter (fun r => weekOf r.time = w + 1)).filterMap (fun r => r.mf)
        = ((d.df.rows.filter (fun r => weekOf r.time = w)).filterMap (fun r => r.mf)).map
            (fun v => 2 * v)) :
    ((d.weekly_ave).2).cols.headD "" = "Weekly average mole fraction"
    ∧ ((d.weekly_ave).2).rows.map Prod.fst = [w, w + 1]
    ∧ ((d.weekly_ave).2).rows.map (fun p => p.2.headD none)
        = [some (specWeekMean d.df w), some (2 * specWeekMean d.df w)] := by
  have hkeys : sortedKeys (d.df.rows.map (fun r => weekOf r.time)) = [w, w + 1] := by
    apply pairwise_two_elems (pairwise_sortedKeys _)
    intro a
    rw [mem_sortedKeys, List.mem_map]
    constructor
    · rintro ⟨r, hr, hrw⟩
      rcases hall r hr with h | h
      · exact Or.inl (by omega)
      · exact Or.inr (by omega)
    · rintro (h | h)
      · obtain ⟨r, hr, hrw⟩ := h1
        exact ⟨r, hr, by omega⟩
      · obtain ⟨r, hr, hrw⟩ := h2
        exact ⟨r, hr, by omega⟩
  have hmean := aggBy_mean (fun r => weekOf r.time) d.df hv
  have hk := aggBy_keys (fun r => weekOf r.time) d.df
  rw [hkeys] at hk
  refine ⟨?_, ?_, ?_⟩
  · show (((aggBy (fun r => weekOf r.time) d.df).cols.map _)).headD "" = _
    unfold aggBy
    simp
  · rw [weekly_ave_rows]
    exact hk
  · rw [weekly_ave_rows]
    have hdm : specGroupMean (fun r => weekOf r.time) d.df (w + 1)
        = 2 * specGroupMean (fun r => weekOf r.time) d.df w := by
      unfold specGroupMean
      simp only
      rw [hdbl, sum_map_two_mul, List.length_map, mul_div_assoc]
    revert hk hmean
    match (aggBy (fun r => weekOf r.time) d.df).rows with
    | [] => intro hm hk; simp at hk
    | [p] => intro hm hk; simp at hk
    | [p, q] =>
      intro hm hk
      simp only [List.map_cons, List.map_nil, List.cons.injEq, and_true] at hk
      have hp := hm p (by simp)
      have hq := hm q (by simp)
      show _ = [some (specGroupMean (fun r => weekOf r.time) d.df w),
                some (2 * specGroupMean (fun r => weekOf r.time) d.df w)]
      simp only [List.map_cons, List.map_nil]
      rw [hp, hq, hk.1, hk.2, hdm]
    | p :: q :: z :: rest => intro hm hk; simp at hk

def wit3frame : RawFrame :=
  { extraCols := []
    rows := [{ time := 0, mf := some 1, extra := [] },
             { time := 24, mf := some 3, extra := [] },
             { time := 168, mf := some 2, extra := [] },
             { time := 192, mf := some 6, extra := [] }] }

def wit3 : Data :=
  { site := "MHD", species := "ch4", path := "data/MHD_ch4.csv", df := wit3frame,
    scale := "TU1987", units := "ppb" }

/-- C3 witness: the two-week doubling property evaluated on a concrete
series (week 0 values 1, 3; week 1 values 2, 6). -/
theorem weekly_ave_two_weeks_witness :
    wit3.df.validB = true
    ∧ (((wit3.weekly_ave).2).cols.headD "" = "Weekly average mole fraction"
      ∧ ((wit3.weekly_ave).2).rows.map Prod.fst = [0, 0 + 1]
      ∧ ((wit3.weekly_ave).2).rows.map (fun p => p.2.headD none)
          = [some (specWeekMean wit3.df 0), some (2 * specWeekMean wit3.df 0)]) :=
  ⟨by decide, weekly_ave_two_weeks wit3 0 (by decide) (by decide) (by decide) (by decide)
    (by decide)⟩

theorem filter_eq_drop {α : Type} (p : α → Bool) (l : List α) (k : ℕ)
    (h : ∀ i, (hi : i < l.length) → (p (l.get ⟨i, hi⟩) = true ↔ k ≤ i)) :
    l.filter p = l.drop k := by
  induction l generalizing k with
  | nil => simp
  | cons x xs ih =>
    cases k with
    | zero =>
      rw [List.drop_zero]
      apply List.filter_eq_self.mpr
      intro a ha
      obtain ⟨i, hget⟩ := List.mem_iff_get.mp ha
      rw [← hget]
      exact (h i.1 i.2).mpr (Nat.zero_le _)
    | succ k' =>
      have hx : p x = false := by
        cases hpx : p x with
        | false => rfl
        | true =>
          have := (h 0 (Nat.succ_pos _)).mp hpx
          omega
      rw [List.filter_cons_of_neg (by simp [hx]), List.drop_succ_cons]
      apply ih
      intro i hi
      have := h (i + 1) (Nat.succ_lt_succ hi)
      simpa [Nat.succ_le_succ_iff] using this

theorem allSome_map_some (l : List ℚ) : allSome (l.map some) = some l := by
  induction l with
  | nil => rfl
  | cons x xs ih => simp [allSome, ih]

theorem rollingQ_map_some (w : ℕ) (q : ℚ) (ms : List ℚ) :
    rollingQ w q (ms.map some) = (List.range ms.length).map (fun i =>
      if i + 1 < w then none
      else some (quantileLinear q ((ms.drop (i + 1 - w)).take w))) := by
  unfold rollingQ
  rw [List.length_map]
  apply List.map_congr_left
  intro i _
  by_cases hi : i + 1 < w
  · simp [hi]
  · simp only [hi, if_false]
    have hmt : ((ms.map some).drop (i + 1 - w)).take w = ((ms.drop (i + 1 - w)).take w).map some := by
      rw [← List.map_drop, ← List.map_take]
    rw [hmt, allSome_map_some]

theorem mfColumn_dayGrouped (f : RawFrame) (hx : f.extraCols = []) (hv : f.validB = true) :
    mfColumn (dayGrouped f) = (dailyMeans f).map some := by
  unfold mfColumn dailyMeans dayGrouped
  rw [aggBy_rows_eq _ _ hx hv]
  simp only [List.map_map]
  apply List.map_congr_left
  intro k _
  rfl

theorem dailyMeans_length (f : RawFrame) :
    (dailyMeans f).length = (dayGrouped f).rows.length := List.length_map _ _

theorem dailyMeans_eq (f : RawFrame) (hx : f.extraCols = []) (hv : f.validB = true) :
    dailyMeans f = (sortedKeys (f.rows.map (fun r => dayOf r.time))).map
      (fun k => specGroupMean (fun r => dayOf r.time) f k) := by
  unfold dailyMeans dayGrouped
  rw [aggBy_rows_eq _ _ hx hv, List.map_map]
  rfl

theorem withBaseline_length (a : AggFrame) :
    (withBaseline a).rows.length = a.rows.length := by
  unfold withBaseline rollingQ mfColumn
  simp [List.length_zip]

theorem zip_range_map {α β : Type} (l : List α) (g : ℕ → β) (d : α) :
    l.zip ((List.range l.length).map g)
      = (List.range l.length).map (fun i => (l.getD i d, g i)) := by
  induction l generalizing g with
  | nil => simp
  | cons x xs ih =>
    have hr : List.range (x :: xs).length = 0 :: (List.range xs.length).map Nat.succ := by
      simp [List.range_succ_eq_map]
    rw [hr]
    simp only [List.map_cons, List.map_map, List.zip_cons_cons]
    rw [ih (g ∘ Nat.succ)]
    simp [List.map_map, Function.comp]

theorem withBaseline_rows_eq (f : RawFrame) (hx : f.extraCols = []) (hv : f.validB = true) :
    (withBaseline (dayGrouped f)).rows
      = (List.range (dayGrouped f).rows.length).map (fun i =>
          (((dayGrouped f).rows.map Prod.fst).getD i 0,
           [some ((dailyMeans f).getD i 0),
            if i + 1 < 14 then none
            else some (quantileLinear (1/20) (((dailyMeans f).drop (i + 1 - 14)).take 14))])) := by
  have hms : mfColumn (dayGrouped f) = (dailyMeans f).map some := mfColumn_dayGrouped f hx hv
  have e1 : (dayGrouped f).rows
      = (sortedKeys (f.rows.map (fun r => dayOf r.time))).map
          (fun k => (k, [some (specGroupMean (fun r => dayOf r.time) f k)])) :=
    aggBy_rows_eq _ f hx hv
  have hdm := dailyMeans_eq f hx hv
  have hroll : rollingQ 14 (1/20) (mfColumn (dayGrouped f))
      = (List.range (dayGrouped f).rows.length).map (fun i =>
          if i + 1 < 14 then none
          else some (quantileLinear (1/20) (((dailyMeans f).drop (i + 1 - 14)).take 14))) := by
    rw [hms, rollingQ_map_some, dailyMeans_length]
  show ((dayGrouped f).rows.zip (rollingQ 14 (1/20) (mfColumn (dayGrouped f)))).map
      (fun p => (p.1.1, p.1.2 ++ [p.2])) = _
  rw [hroll, zip_range_map _ _ ((0 : ℕ), ([] : List (Option ℚ))), List.map_map]
  apply List.map_congr_left
  intro i hi
  have hi' : i < (dayGrouped f).rows.length := List.mem_range.mp hi
  have hks : i < (sortedKeys (f.rows.map (fun r => dayOf r.time))).length := by
    have h := hi'
    rw [e1] at h
    simpa using h
  rw [e1, hdm]
  simp only [List.map_map, Function.comp]
  rw [List.getD_eq_getElem _ _ (by simpa using hks),
      List.getD_eq_getElem _ _ (by simpa using hks),
      List.getD_eq_getElem _ _ (by simpa using hks)]
  simp [List.getElem_map]

theorem baseline_ok (d : Data) (hx : d.df.extraCols = []) :
    (d.baseline).2 = Except.ok (dropna (withBaseline (dayGrouped d.df))) := by
  unfold Data.baseline
  simp [hx, dayGrouped]

/-- C1 (amended with the missing-value hypothesis): for a raw series with no
missing mole-fraction values whose day-grouped table has at least 14 rows,
`baseline` drops exactly the first 13 rows of the day-grouped series, and
every remaining row carries the daily mean together with the 5th percentile
of the trailing 14 daily means inclusive of the current day. -/
theorem baseline_correct (d : Data) (hx : d.df.extraCols = []) (hv : d.df.validB = true)
    (h14 : 14 ≤ (dayGrouped d.df).rows.length) :
    ∃ b, (d.baseline).2 = Except.ok b
      ∧ b.rows = (withBaseline (dayGrouped d.df)).rows.drop 13
      ∧ b.rows.length = (dayGrouped d.df).rows.length - 13
      ∧ ∀ j, j < b.rows.length →
          (b.rows.getD j ((0 : ℕ), ([] : List (Option ℚ)))).2
            = [some ((dailyMeans d.df).getD (13 + j) 0),
               some (percentile5 (((dailyMeans d.df).drop j).take 14))] := by
  have hw := withBaseline_rows_eq d.df hx hv
  have hdrop : (dropna (withBaseline (dayGrouped d.df))).rows
      = (withBaseline (dayGrouped d.df)).rows.drop 13 := by
    show (withBaseline (dayGrouped d.df)).rows.filter _ = _
    apply filter_eq_drop
    intro i hi
    have hi' : i < (dayGrouped d.df).rows.length := by
      rw [withBaseline_length] at hi
      exact hi
    have hget : ((withBaseline (dayGrouped d.df)).rows.get ⟨i, hi⟩).2
        = [some ((dailyMeans d.df).getD i 0),
           if i + 1 < 14 then none
           else some (quantileLinear (1/20) (((dailyMeans d.df).drop (i + 1 - 14)).take 14))] := by
      have hc := congrArg (fun l => l.getD i ((0 : ℕ), ([] : List (Option ℚ)))) hw
      simp only at hc
      rw [List.getD_eq_getElem _ _ hi,
          List.getD_eq_getElem _ _ (by simpa using hi')] at hc
      rw [List.get_eq_getElem, hc]
      simp
    rw [hget]
    by_cases h13 : i + 1 < 14
    · simp [h13]
      omega
    · simp [h13]
      omega
  refine ⟨dropna (withBaseline (dayGrouped d.df)), baseline_ok d hx, hdrop, ?_, ?_⟩
  · rw [hdrop, List.length_drop, withBaseline_length]
  · intro j hj
    rw [hdrop] at hj ⊢
    have hj' : 13 + j < (dayGrouped d.df).rows.length := by
      rw [List.length_drop, withBaseline_length] at hj
      omega
    have hstep : ((withBaseline (dayGrouped d.df)).rows.drop 13).getD j
          ((0 : ℕ), ([] : List (Option ℚ)))
        = (withBaseline (dayGrouped d.df)).rows.getD (13 + j)
          ((0 : ℕ), ([] : List (Option ℚ))) := by
      rw [List.getD_eq_getElem _ _ hj,
          List.getD_eq_getElem _ _ (by rw [withBaseline_length]; exact hj')]
      exact List.getElem_drop _
    rw [hstep, hw, List.getD_eq_getElem _ _ (by simpa using hj')]
    simp only [List.getElem_map, List.getElem_range]
    have h14' : ¬(13 + j + 1 < 14) := by omega
    have hidx : 13 + j + 1 - 14 = j := by omega
    rw [if_neg h14', hidx]
    rfl

def wit1frame : RawFrame :=
  { extraCols := []
    rows := (List.range 336).map (fun i => { time := i, mf := some 10, extra := [] }) }

def wit1 : Data :=
  { site := "MHD", species := "ch4", path := "data/MHD_ch4.csv", df := wit1frame,
    scale := "TU1987", units := "ppb" }

set_option maxRecDepth 1000000 in
/-- C1 witness: the spec's example, hourly rows for exactly 14 consecutive
days with constant value 10.0; the result is the single day-14 row with
daily mean 10 and baseline 10, and the general theorem applies. -/
theorem baseline_correct_witness :
    (wit1.df.extraCols = [] ∧ wit1.df.validB = true
      ∧ 14 ≤ (dayGrouped wit1.df).rows.length
      ∧ (wit1.baseline).2.toOption
          = some { cols := ["mf", "Baseline"], rows := [(13, [some 10, some 10])] })
    ∧ ∃ b, (wit1.baseline).2 = Except.ok b
      ∧ b.rows = (withBaseline (dayGrouped wit1.df)).rows.drop 13
      ∧ b.rows.length = (dayGrouped wit1.df).rows.length - 13
      ∧ ∀ j, j < b.rows.length →
          (b.rows.getD j ((0 : ℕ), ([] : List (Option ℚ)))).2
            = [some ((dailyMeans wit1.df).getD (13 + j) 0),
               some (percentile5 (((dailyMeans wit1.df).drop j).take 14))] :=
  ⟨⟨rfl, by decide, by decide, by decide⟩,
   baseline_correct wit1 rfl (by decide) (by decide)⟩

def cex1frame : RawFrame :=
  { extraCols := []
    rows := (List.range 15).map
      (fun i => { time := 24 * i, mf := if i = 14 then none else some 1, extra := [] }) }

def cex1 : Data :=
  { site := "MHD", species := "ch4", path := "data/MHD_ch4.csv", df := cex1frame,
    scale := "TU1987", units := "ppb" }

set_option maxRecDepth 1000000 in
/-- C1 counterexample: a raw series whose day-grouped table has 15 rows but
whose last day's mole fraction is missing; `baseline` returns 1 row, not
the 2 rows that dropping exactly the first 13 would leave. -/
theorem baseline_drop13_cex :
    (dayGrouped cex1.df).rows.length = 15
    ∧ ((cex1.baseline).2.toOption.map (fun b => b.rows.length)) = some 1
    ∧ ((cex1.baseline).2.toOption.map (fun b => b.rows.length)) ≠ some (15 - 13) := by
  decide

/-- C9: `baseline` excludes from its result every row of the day-grouped
series (with its Baseline column) that contains an undefined value in any
column, not only the 13 leading rows. -/
theorem baseline_drops_undefined (d : Data) (hx : d.df.extraCols = []) :
    ∃ b, (d.baseline).2 = Except.ok b
      ∧ ∀ p ∈ (withBaseline (dayGrouped d.df)).rows,
          (∃ v ∈ p.2, v = none) → p ∉ b.rows := by
  refine ⟨_, baseline_ok d hx, ?_⟩
  intro p _ hex hmem
  obtain ⟨v, hv, hvn⟩ := hex
  have hf := (List.mem_filter.mp hmem).2
  rw [List.all_eq_true] at hf
  have hs := hf v hv
  rw [hvn] at hs
  simp at hs

def wit9frame : RawFrame :=
  { extraCols := []
    rows := (List.range 15).map
      (fun i => { time := 24 * i, mf := if i = 7 then none else some 1, extra := [] }) }

def wit9 : Data :=
  { site := "MHD", species := "ch4", path := "data/MHD_ch4.csv", df := wit9frame,
    scale := "TU1987", units := "ppb" }

set_option maxRecDepth 1000000 in
/-- C9 witness: a series with an all-missing eighth day; the exclusion
theorem applies, and concretely day 7's row is absent from the result. -/
theorem baseline_drops_undefined_witness :
    wit9.df.extraCols = []
    ∧ (∃ b, (wit9.baseline).2 = Except.ok b
        ∧ ∀ p ∈ (withBaseline (dayGrouped wit9.df)).rows,
            (∃ v ∈ p.2, v = none) → p ∉ b.rows) :=
  ⟨rfl, baseline_drops_undefined wit9 rfl⟩

/-- C4: `plot_compare` raises the units-mismatch error whenever the unit
strings differ, and the scale-mismatch error whenever the units match but
the scale strings differ; in both cases the two dataset states are
returned unchanged and no plot value is produced. -/
theorem plot_compare_mismatch (d : Data) (data : AggFrame) (o : Data) (data2 : AggFrame) :
    (d.units ≠ o.units →
      d.plot_compare data o data2 = (d, o, Except.error "Units must match"))
    ∧ (d.units = o.units → d.scale ≠ o.scale →
      d.plot_compare data o data2 = (d, o, Except.error "Scale must match")) := by
  constructor
  · intro h
    unfold Data.plot_compare
    rw [if_pos h]
  · intro hu hs
    unfold Data.plot_compare
    rw [if_neg (fun h => h hu), if_pos hs]

def agg0 : AggFrame := { cols := ["Weekly average mole fraction"], rows := [(0, [some 1])] }

def wit4a : Data :=
  { site := "MHD", species := "ch4", path := "p", df := { extraCols := [], rows := [] },
    scale := "TU1987", units := "ppb" }

def wit4b : Data :=
  { site := "THD", species := "cfc11", path := "p", df := { extraCols := [], rows := [] },
    scale := "SIO-05", units := "ppt" }

def wit4c : Data :=
  { site := "MHD", species := "ch4", path := "p", df := { extraCols := [], rows := [] },
    scale := "TU1987", units := "ppb" }

def wit4d : Data :=
  { site := "THD", species := "n2o", path := "p", df := { extraCols := [], rows := [] },
    scale := "SIO-16", units := "ppb" }

/-- C4 witness: a unit mismatch and a scale-only mismatch, each raising its
error with both states unchanged. -/
theorem plot_compare_mismatch_witness :
    (wit4a.units ≠ wit4b.units
      ∧ wit4a.plot_compare agg0 wit4b agg0 = (wit4a, wit4b, Except.error "Units must match"))
    ∧ (wit4c.units = wit4d.units ∧ wit4c.scale ≠ wit4d.scale
      ∧ wit4c.plot_compare agg0 wit4d agg0 = (wit4c, wit4d, Except.error "Scale must match")) :=
  ⟨⟨by decide, (plot_compare_mismatch wit4a agg0 wit4b agg0).1 (by decide)⟩,
   ⟨rfl, by decide, (plot_compare_mismatch wit4c agg0 wit4d agg0).2 rfl (by decide)⟩⟩

/-- C5: with matching units and scale, `plot_compare` plots, for each of
the two weekly series, exactly the input series with its final row removed
(week numbers on x, last-column values on y). -/
theorem plot_compare_drops_last (d : Data) (data : AggFrame) (o : Data) (data2 : AggFrame)
    (hu : d.units = o.units) (hs : d.scale = o.scale) :
    ∃ out, (d.plot_compare data o data2).2.2 = Except.ok out
      ∧ out.x = data.rows.dropLast.map (fun p => weekNumOf p.1)
      ∧ out.y = data.rows.dropLast.map (fun p => p.2.getLastD none)
      ∧ out.x2 = data2.rows.dropLast.map (fun p => weekNumOf p.1)
      ∧ out.y2 = data2.rows.dropLast.map (fun p => p.2.getLastD none) := by
  unfold Data.plot_compare
  rw [if_neg (fun h => h hu), if_neg (fun h => h hs)]
  exact ⟨_, rfl, (List.map_dropLast _ _).symm, (List.map_dropLast _ _).symm,
    (List.map_dropLast _ _).symm, (List.map_dropLast _ _).symm⟩

def wit5a : Data :=
  { site := "MHD", species := "ch4", path := "p", df := { extraCols := [], rows := [] },
    scale := "TU1987", units := "ppb" }

def wit5b : Data :=
  { site := "THD", species := "ch4", path := "p", df := { extraCols := [], rows := [] },
    scale := "TU1987", units := "ppb" }

def agg5 : AggFrame :=
  { cols := ["Weekly average mole fraction"]
    rows := [(0, [some 1]), (1, [some 2]), (2, [some 3])] }

/-- C5 witness: two three-row weekly series; both plotted series are the
inputs with the last row removed. -/
theorem plot_compare_drops_last_witness :
    wit5a.units = wit5b.units ∧ wit5a.scale = wit5b.scale
    ∧ ∃ out, (wit5a.plot_compare agg5 wit5b agg5).2.2 = Except.ok out
      ∧ out.x = agg5.rows.dropLast.map (fun p => weekNumOf p.1)
      ∧ out.y = agg5.rows.dropLast.map (fun p => p.2.getLastD none)
      ∧ out.x2 = agg5.rows.dropLast.map (fun p => weekNumOf p.1)
      ∧ out.y2 = agg5.rows.dropLast.map (fun p => p.2.getLastD none) :=
  ⟨rfl, rfl, plot_compare_drops_last wit5a agg5 wit5b agg5 rfl rfl⟩

def cex6 : Data :=
  { site := "MHD", species := "ch4", path := "p", df := { extraCols := [], rows := [] },
    scale := "TU1987", units := "ppb" }

/-- C6 counterexample: `plot` stores the plotted frame in the instance
attribute `data`, a state change beyond appending derived period columns
to the stored table. -/
theorem plot_mutates_data : ((cex6.plot agg0).1).data ≠ cex6.data := by decide

/-- C6 (amended): `weekly_ave` and `baseline` change only the stored table,
appending exactly the week / day period column respectively; `plot` and
`plot_compare` additionally store the plotted frames in the instance
attributes `data` / `data2` of the respective instances. -/
theorem state_effects (d : Data) (o : Data) (f g : AggFrame)
    (hu : d.units = o.units) (hs : d.scale = o.scale) :
    (d.weekly_ave).1 = { d with df := { d.df with hasWeek := true } }
    ∧ (d.baseline).1 = { d with df := { d.df with hasDay := true } }
    ∧ (d.plot f).1 = { d with data := some f }
    ∧ (d.plot_compare f o g).1 = { d with data := some f }
    ∧ (d.plot_compare f o g).2.1 = { o with data2 := some g } := by
  refine ⟨rfl, rfl, rfl, ?_, ?_⟩ <;>
  · unfold Data.plot_compare
    rw [if_neg (fun h => h hu), if_neg (fun h => h hs)]

/-- C6 amended-theorem witness at concrete states. -/
theorem state_effects_witness :
    wit5a.units = wit5b.units ∧ wit5a.scale = wit5b.scale
    ∧ ((wit5a.weekly_ave).1 = { wit5a with df := { wit5a.df with hasWeek := true } }
      ∧ (wit5a.baseline).1 = { wit5a with df := { wit5a.df with hasDay := true } }
      ∧ (wit5a.plot agg5).1 = { wit5a with data := some agg5 }
      ∧ (wit5a.plot_compare agg5 wit5b agg0).1 = { wit5a with data := some agg5 }
      ∧ (wit5a.plot_compare agg5 wit5b agg0).2.1 = { wit5b with data2 := some agg0 }) :=
  ⟨rfl, rfl, state_effects wit5a wit5b agg5 agg0 rfl rfl⟩

def cex7 : Data :=
  { site := "MHD", species := "ch4", path := "p",
    df := { extraCols := []
            rows := [{ time := 0, mf := some 1, extra := [] },
                     { time := 1, mf := none, extra := [] }] },
    scale := "TU1987", units := "ppb" }

/-- C7 counterexample: with one missing mole-fraction value among two rows,
describe's count for `mf` is 1, not the raw row count 2. -/
theorem glimpse_count_cex :
    ¬(((cex7.glimpse).headD ("", 0)).2 = cex7.df.rows.length) := by decide

/-- C7 (amended): describe's count for the mole-fraction column always
equals the number of rows whose mole-fraction value is present, and it
equals the raw row count exactly when no mole-fraction value is missing. -/
theorem glimpse_count (d : Data) :
    ((d.glimpse).headD ("", 0)).2 = (d.df.rows.filter (fun r => r.mf.isSome)).length
    ∧ (((d.glimpse).headD ("", 0)).2 = d.df.rows.length ↔ d.df.validB = true) := by
  refine ⟨rfl, ?_⟩
  show (d.df.rows.filter (fun r => r.mf.isSome)).length = d.df.rows.length ↔ _
  constructor
  · intro h
    have heq : d.df.rows.filter (fun r => r.mf.isSome) = d.df.rows :=
      (List.filter_sublist d.df.rows).eq_of_length h
    exact List.all_eq_true.mpr (List.filter_eq_self.mp heq)
  · intro hv
    rw [List.filter_eq_self.mpr (fun a ha => validB_all hv a ha)]

def cex8 : Data :=
  { site := "MHD", species := "ch4", path := "p",
    df := { extraCols := ["pressure"]
            rows := [{ time := 0, mf := some 1, extra := [some 5] }] },
    scale := "TU1987", units := "ppb" }

/-- C8 counterexample: on a series with one additional numeric column,
`baseline` raises rather than carrying the column through. -/
theorem baseline_extra_cols_cex :
    (cex8.baseline).2 = Except.error
      "Cannot set a DataFrame with multiple columns to the single column Baseline" := rfl

/-- C8 (amended): `weekly_ave` accepts additional numeric columns and
carries one aggregated value per extra column in every row, while
`baseline` raises the single-column assignment error whenever an extra
numeric column is present. -/
theorem extra_cols_behavior (d : Data) (hm : "mf" ∉ d.df.extraCols) :
    ((d.weekly_ave).2).cols = "Weekly average mole fraction" :: d.df.extraCols
    ∧ (∀ p ∈ ((d.weekly_ave).2).rows, p.2.length = 1 + d.df.extraCols.length)
    ∧ (d.df.extraCols ≠ [] → (d.baseline).2 = Except.error
        "Cannot set a DataFrame with multiple columns to the single column Baseline") := by
  refine ⟨?_, ?_, ?_⟩
  · show ("mf" :: d.df.extraCols).map (fun c => if c = "mf" then "Weekly average mole fraction" else c) = _
    rw [List.map_cons, if_pos rfl]
    congr 1
    have hc : ∀ c ∈ d.df.extraCols,
        (if c = "mf" then "Weekly average mole fraction" else c) = id c := by
      intro c hcm
      rw [if_neg]
      · rfl
      · intro h
        exact hm (h ▸ hcm)
    rw [List.map_congr_left hc, List.map_id]
  · intro p hp
    rw [weekly_ave_rows] at hp
    unfold aggBy at hp
    obtain ⟨k, hk, hpk⟩ := List.mem_map.mp hp
    rw [← hpk]
    unfold aggValues
    simp [Nat.add_comm]
  · intro hne
    unfold Data.baseline
    have hie : d.df.extraCols.isEmpty = false := by
      cases h : d.df.extraCols with
      | nil => exact absurd h hne
      | cons a l => rfl
    simp [hie]

def wit8 : Data :=
  { site := "MHD", species := "ch4", path := "p",
    df := { extraCols := ["pressure"]
            rows := [{ time := 0, mf := some 1, extra := [some 5] },
                     { time := 1, mf := some 3, extra := [some 7] }] },
    scale := "TU1987", units := "ppb" }

/-- C8 amended-theorem witness: one extra column named "pressure". -/
theorem extra_cols_behavior_witness :
    ¬("mf" ∈ wit8.df.extraCols)
    ∧ (((wit8.weekly_ave).2).cols = "Weekly average mole fraction" :: wit8.df.extraCols
      ∧ (∀ p ∈ ((wit8.weekly_ave).2).rows, p.2.length = 1 + wit8.df.extraCols.length)
      ∧ (wit8.df.extraCols ≠ [] → (wit8.baseline).2 = Except.error
          "Cannot set a DataFrame with multiple columns to the single column Baseline")) :=
  ⟨by decide, extra_cols_behavior wit8 (by decide)⟩

/-- C10: construction with an existing, parsed measurement file but a
species absent from the species-metadata table fails with the key-lookup
error, so no dataset object is produced. -/
theorem init_key_error (table : List (String × String × String))
    (store : String → Option RawFrame) (site species : String) (df : RawFrame)
    (hfile : store ("data/" ++ site ++ "_" ++ species ++ ".csv") = some df)
    (hkey : table.find? (fun e => e.1 = species) = none) :
    Data.init table store site species = Except.error "KeyError" := by
  unfold Data.init
  simp [hfile, hkey]

def store10 : String → Option RawFrame := fun _ => some { extraCols := [], rows := [] }

/-- C10 witness: empty metadata table, a store serving an empty frame. -/
theorem init_key_error_witness :
    store10 ("data/" ++ "MHD" ++ "_" ++ "sf6" ++ ".csv") = some { extraCols := [], rows := [] }
    ∧ ([] : List (String × String × String)).find? (fun e => e.1 = "sf6") = none
    ∧ Data.init [] store10 "MHD" "sf6" = Except.error "KeyError" :=
  ⟨rfl, rfl, init_key_error [] store10 "MHD" "sf6" { extraCols := [], rows := [] } rfl rfl⟩
